import Mathlib

/-!
Shallow embedding of `fiasko_bro` (files `code_validator.py` and
`code_helpers.py`).

Python values that can flow through the engine are modelled by `PyVal`;
Python dicts used as keyword-argument bags are modelled as association
lists with dict-update semantics (`dset`, `dget`, `dictUpdate`).
Individual rule functions are opaque external collaborators: the engine
is parameterised over them (`RuleFunction`).
-/

/-- A Python value as it appears in the validator's argument bag and in
rule results: `None`, booleans, integers, strings, tuples, lists, dicts
with string keys, and opaque repository handles. -/
inductive PyVal where
  | none
  | bool (b : Bool)
  | int (n : Int)
  | str (s : String)
  | tuple (elems : List PyVal)
  | list (elems : List PyVal)
  | dict (entries : List (String × PyVal))
  | repo (id : Nat)

/-- A Python keyword-argument bag (`dict` keyed by strings), as an
association list in insertion order. -/
abbrev Args := List (String × PyVal)

/-- A rule (validator) function: called with the whole argument bag,
returns a `PyVal` (success sentinel or violation record). -/
abbrev RuleFunction := Args → PyVal

/-- One entry of a validator-group mapping: group name and its rules. -/
abbrev GroupEntry := String × List RuleFunction

/-- Python `d[k] = v` on a dict: replace the value at an existing key in
place, else append the new key at the end. -/
def dset : Args → String → PyVal → Args
  | [], k, v => [(k, v)]
  | (k2, v2) :: rest, k, v =>
      if k2 = k then (k, v) :: rest else (k2, v2) :: dset rest k v

/-- Python `d.get(k)` / `d[k]` lookup: first (unique) matching key. -/
def dget : Args → String → Option PyVal
  | [], _ => Option.none
  | (k2, v2) :: rest, k => if k2 = k then some v2 else dget rest k

/-- Python `d.update(other)`: set every key of `other`, in order. -/
def dictUpdate (d : Args) (other : Args) : Args :=
  other.foldl (fun acc kv => dset acc kv.1 kv.2) d

/-- Python truthiness of a `PyVal` (`if original_repo:`). -/
def truthy : PyVal → Bool
  | PyVal.none => false
  | PyVal.bool b => b
  | PyVal.int n => decide (n ≠ 0)
  | PyVal.str s => decide (s ≠ "")
  | PyVal.tuple l => !l.isEmpty
  | PyVal.list l => !l.isEmpty
  | PyVal.dict d => !d.isEmpty
  | PyVal.repo _ => true

/-- `dict.get(name, [])` on a validator-group mapping (unique keys). -/
def getGroup : List GroupEntry → String → List RuleFunction
  | [], _ => []
  | (n, g) :: rest, k => if n = k then g else getGroup rest k

/-- The class attribute `CodeValidator.blacklists`. -/
def blacklists : PyVal := PyVal.dict [
  ("has_variables_from_blacklist", PyVal.list [
    PyVal.str "list", PyVal.str "lists", PyVal.str "input", PyVal.str "cnt",
    PyVal.str "data", PyVal.str "name", PyVal.str "load", PyVal.str "value",
    PyVal.str "object", PyVal.str "file", PyVal.str "result", PyVal.str "item",
    PyVal.str "num", PyVal.str "info", PyVal.str "n"]),
  ("has_no_commit_messages_from_blacklist", PyVal.list [
    PyVal.str "win", PyVal.str "commit", PyVal.str "commit#1", PyVal.str "fix",
    PyVal.str "minor edits", PyVal.str "update", PyVal.str "done",
    PyVal.str "first commit", PyVal.str "start", PyVal.str "refactor",
    PyVal.str "!", PyVal.str "bug fix", PyVal.str "corrected",
    PyVal.str "add files via upload", PyVal.str "test", PyVal.str "fixed",
    PyVal.str "minor bugfix", PyVal.str "minor bugfixes", PyVal.str "finished",
    PyVal.str "first commit", PyVal.str "fixes", PyVal.str ""]),
  ("has_no_directories_from_blacklist", PyVal.list [
    PyVal.str ".idea", PyVal.str "__pycache__", PyVal.str ".vscode"])]

/-- The class attribute `CodeValidator.whitelists` (note: in the source,
`'Order' 'Address'` is Python implicit string concatenation, producing
the single entry `"OrderAddress"`). -/
def whitelists : PyVal := PyVal.dict [
  ("has_no_short_variable_names", PyVal.list [
    PyVal.str "a", PyVal.str "b", PyVal.str "c", PyVal.str "x", PyVal.str "y",
    PyVal.str "x1", PyVal.str "x2", PyVal.str "y1", PyVal.str "y2",
    PyVal.str "_"]),
  ("has_no_calls_with_constants", PyVal.list [
    PyVal.str "pow", PyVal.str "exit", PyVal.str "round", PyVal.str "range",
    PyVal.str "enumerate", PyVal.str "time", PyVal.str "itemgetter",
    PyVal.str "get", PyVal.str "group", PyVal.str "replace",
    PyVal.str "combinations", PyVal.str "seek"]),
  ("is_snake_case", PyVal.list [
    PyVal.str "Session", PyVal.str "Base", PyVal.str "User",
    PyVal.str "OrderAddress"]),
  ("right_assignment_for_snake_case", PyVal.list [PyVal.str "Base"]),
  ("has_no_exit_calls_in_functions", PyVal.list [PyVal.str "main"]),
  ("is_pep8_fine", PyVal.list [
    PyVal.str "/migrations/", PyVal.str "/alembic/", PyVal.str "manage.py"]),
  ("has_no_encoding_declaration", PyVal.list [PyVal.str "/migrations/"]),
  ("has_no_local_imports", PyVal.list [PyVal.str "manage.py"]),
  ("has_local_var_named_as_global", PyVal.list [PyVal.str "settings.py"]),
  ("has_variables_from_blacklist", PyVal.list [PyVal.str "apps.py"]),
  ("has_no_extra_dockstrings_whitelist", PyVal.list [
    PyVal.str "/migrations/", PyVal.str "/alembic/"])]

/-- The class attribute `CodeValidator._default_settings`. -/
def _default_settings : Args := [
  ("readme_filename", PyVal.str "README.md"),
  ("allowed_max_pep8_violations", PyVal.int 5),
  ("max_complexity", PyVal.int 7),
  ("minimum_name_length", PyVal.int 2),
  ("min_percent_of_another_language", PyVal.int 30),
  ("last_commits_to_check_amount", PyVal.int 5),
  ("tab_size", PyVal.int 4),
  ("functions_with_docstrings_percent_limit", PyVal.int 80),
  ("max_pep8_line_length", PyVal.int 100)]

/-- The group names (keys, in declaration order) of the class attribute
`CodeValidator.error_validator_groups`; the rule functions themselves
live in the excluded `validators` module. -/
def error_validator_group_names : List String :=
  ["commits", "readme", "encoding", "bom", "syntax", "general"]

/-- The group names (keys) of `CodeValidator.warning_validator_groups`. -/
def warning_validator_group_names : List String :=
  ["commits", "syntax"]

/-- The class-body check `for name in warning_validator_groups: assert
name in error_validator_groups.keys()`, run once when the class (hence
the process-wide catalog) is constructed. -/
def class_body_assert : Bool :=
  warning_validator_group_names.all
    (fun name => error_validator_group_names.contains name)

/-- The engine state: the two validator-group mappings (class
attributes, parameterised here because the rules are opaque external
collaborators) and the mutable instance dict `validator_arguments`. -/
structure CodeValidator where
  error_validator_groups : List GroupEntry
  warning_validator_groups : List GroupEntry
  validator_arguments : Args

/-- `CodeValidator.__init__(**kwargs)`: start from a copy of
`_default_settings` and update it with the constructor kwargs. -/
def CodeValidator.init (egroups wgroups : List GroupEntry) (kwargs : Args) :
    CodeValidator :=
  { error_validator_groups := egroups
    warning_validator_groups := wgroups
    validator_arguments := dictUpdate _default_settings kwargs }

/-- `CodeValidator._is_successful_validation`: `not isinstance(result,
tuple)` — any tuple, of any length, counts as a violation. -/
def _is_successful_validation (validation_result : PyVal) : Bool :=
  match validation_result with
  | PyVal.tuple _ => false
  | _ => true

/-- `CodeValidator._run_validator_group`: call every validator of the
group on the argument bag, collecting the unsuccessful results in
order. -/
def _run_validator_group (group : List RuleFunction) (arguments : Args) :
    List PyVal :=
  match group with
  | [] => []
  | validator :: rest =>
      let validation_result := validator arguments
      if _is_successful_validation validation_result then
        _run_validator_group rest arguments
      else
        validation_result :: _run_validator_group rest arguments

/-- The loop of `CodeValidator._run_warning_validators_until`: walk the
error-group names in declaration order, returning the accumulated
warnings as soon as the failed group's name is met. -/
def warnUntilLoop (wgroups : List GroupEntry) (egroups : List GroupEntry)
    (failed_error_group_name : String) (arguments : Args) : List PyVal :=
  match egroups with
  | [] => []
  | (error_group_name, _) :: rest =>
      if error_group_name = failed_error_group_name then []
      else
        _run_validator_group (getGroup wgroups error_group_name) arguments
          ++ warnUntilLoop wgroups rest failed_error_group_name arguments

/-- `CodeValidator._run_warning_validators_until`: "Gets warnings up
until but not including the failed group". -/
def _run_warning_validators_until (cv : CodeValidator)
    (failed_error_group_name : String) (arguments : Args) : List PyVal :=
  warnUntilLoop cv.warning_validator_groups cv.error_validator_groups
    failed_error_group_name arguments

/-- The loop of `CodeValidator.validate`: run the error groups in
declaration order, accumulating `errors`; as soon as `errors` is
non-empty after a group, append that group's warning sweep and stop. -/
def validateLoop (cv : CodeValidator) (egroups : List GroupEntry)
    (arguments : Args) (errors : List PyVal) : List PyVal :=
  match egroups with
  | [] => errors
  | (error_group_name, error_group) :: rest =>
      let errors2 := errors ++ _run_validator_group error_group arguments
      if errors2.isEmpty then validateLoop cv rest arguments errors2
      else errors2 ++ _run_warning_validators_until cv error_group_name arguments

/-- The argument-bag construction at the top of `CodeValidator.validate`:
`self.validator_arguments.update(kwargs)` followed by the reserved-key
assignments (`whitelists`, `blacklists`, `solution_repo`, and
`original_repo` only when truthy). -/
def validateArguments (cv : CodeValidator)
    (solution_repo original_repo : PyVal) (kwargs : Args) : Args :=
  let a1 := dictUpdate cv.validator_arguments kwargs
  let a2 := dset a1 "whitelists" whitelists
  let a3 := dset a2 "blacklists" blacklists
  let a4 := dset a3 "solution_repo" solution_repo
  if truthy original_repo then dset a4 "original_repo" original_repo else a4

/-- `CodeValidator.validate(solution_repo, original_repo=None, **kwargs)`.
Returns the violation list together with the post-call engine state
(the method mutates `self.validator_arguments` in place). -/
def CodeValidator.validate (cv : CodeValidator)
    (solution_repo original_repo : PyVal) (kwargs : Args) :
    List PyVal × CodeValidator :=
  let arguments := validateArguments cv solution_repo original_repo kwargs
  let cv2 := { cv with validator_arguments := arguments }
  (validateLoop cv2 cv2.error_validator_groups arguments [], cv2)

/-! ### Lemmas about the dict operations -/

theorem dget_dset_self (d : Args) (k : String) (v : PyVal) :
    dget (dset d k v) k = some v := by
  induction d with
  | nil => simp [dset, dget]
  | cons kv rest ih =>
      cases kv with
      | mk k2 v2 =>
          by_cases h : k2 = k
          · simp [dset, dget, h]
          · simp [dset, dget, h, ih]

theorem dget_dset_ne (d : Args) (k k2 : String) (v : PyVal) (h : k2 ≠ k) :
    dget (dset d k v) k2 = dget d k2 := by
  have hke : ¬k = k2 := fun hh => h hh.symm
  induction d with
  | nil => simp [dset, dget, hke]
  | cons kv rest ih =>
      cases kv with
      | mk k3 v3 =>
          by_cases h3 : k3 = k
          · subst h3
            simp [dset, dget, hke]
          · simp [dset, dget, h3, ih]

theorem dget_dictUpdate_not_mem (d e : Args) (k : String)
    (h : k ∉ e.map Prod.fst) :
    dget (dictUpdate d e) k = dget d k := by
  induction e generalizing d with
  | nil => rfl
  | cons kv rest ih =>
      cases kv with
      | mk k2 v2 =>
          have hne : k ≠ k2 := by
            intro hk
            exact h (by simp [hk])
          have hrest : k ∉ rest.map Prod.fst := by
            intro hk
            exact h (by simp [hk])
          have step : dictUpdate d ((k2, v2) :: rest) =
              dictUpdate (dset d k2 v2) rest := rfl
          rw [step, ih (dset d k2 v2) hrest, dget_dset_ne d k2 k v2 hne]

/-! ### Lemmas about the engine loops -/

theorem run_validator_group_eq_filter (group : List RuleFunction)
    (arguments : Args) :
    _run_validator_group group arguments =
      (group.map (fun validator => validator arguments)).filter
        (fun r => !(_is_successful_validation r)) := by
  induction group with
  | nil => rfl
  | cons v rest ih =>
      simp only [_run_validator_group, List.map_cons, List.filter_cons, ih]
      cases h : _is_successful_validation (v arguments) <;> simp [h]

theorem flatten_map_nil {α β : Type} (f : α → List β) (l : List α)
    (h : ∀ x ∈ l, f x = []) : (l.map f).flatten = [] := by
  induction l with
  | nil => rfl
  | cons a as ih =>
      simp only [List.map_cons, List.flatten_cons,
        h a (List.mem_cons_self a as),
        ih (fun x hx => h x (List.mem_cons_of_mem a hx)), List.nil_append]

theorem warnUntilLoop_spec (wgroups : List GroupEntry) (arguments : Args)
    (pre rest : List GroupEntry) (failName : String)
    (failGroup : List RuleFunction)
    (hname : failName ∉ pre.map Prod.fst) :
    warnUntilLoop wgroups (pre ++ (failName, failGroup) :: rest) failName
        arguments =
      (pre.map (fun g =>
        _run_validator_group (getGroup wgroups g.1) arguments)).flatten := by
  induction pre with
  | nil => simp [warnUntilLoop]
  | cons p ps ih =>
      cases p with
      | mk pn pg =>
          have hne : pn ≠ failName := by
            intro hk
            exact hname (by simp [hk])
          have hps : failName ∉ ps.map Prod.fst := by
            intro hk
            exact hname (by simp [hk])
          simp only [List.cons_append, warnUntilLoop, hne, if_false,
            List.map_cons, List.flatten_cons]
          exact congrArg
            (_run_validator_group (getGroup wgroups pn) arguments ++ ·)
            (ih hps)

theorem validateLoop_first_fail (cv : CodeValidator) (arguments : Args)
    (pre rest : List GroupEntry) (failName : String)
    (failGroup : List RuleFunction)
    (hbefore : ∀ g ∈ pre, _run_validator_group g.2 arguments = [])
    (hfail : _run_validator_group failGroup arguments ≠ []) :
    validateLoop cv (pre ++ (failName, failGroup) :: rest) arguments [] =
      _run_validator_group failGroup arguments
        ++ _run_warning_validators_until cv failName arguments := by
  induction pre with
  | nil =>
      have h2 : (_run_validator_group failGroup arguments).isEmpty = false := by
        cases hx : _run_validator_group failGroup arguments with
        | nil => exact absurd hx hfail
        | cons a l => rfl
      simp [validateLoop, h2]
  | cons p ps ih =>
      cases p with
      | mk pn pg =>
          have hp : _run_validator_group pg arguments = [] :=
            hbefore (pn, pg) (List.mem_cons_self _ _)
          have hps : ∀ g ∈ ps, _run_validator_group g.2 arguments = [] :=
            fun g hg => hbefore g (List.mem_cons_of_mem _ hg)
          simp only [List.cons_append, validateLoop, hp, List.append_nil,
            List.nil_append, List.isEmpty_nil, if_true]
          exact ih hps

theorem validateLoop_all_clean (cv : CodeValidator) (egroups : List GroupEntry)
    (arguments : Args)
    (h : ∀ g ∈ egroups, _run_validator_group g.2 arguments = []) :
    validateLoop cv egroups arguments [] = [] := by
  induction egroups with
  | nil => rfl
  | cons p ps ih =>
      cases p with
      | mk pn pg =>
          have hp := h (pn, pg) (List.mem_cons_self _ _)
          simp only [validateLoop, hp, List.append_nil, List.nil_append,
            List.isEmpty_nil, if_true]
          exact ih (fun g hg => h g (List.mem_cons_of_mem _ hg))

theorem validate_first_fail_core (cv : CodeValidator)
    (solution_repo original_repo : PyVal) (kwargs : Args)
    (pre rest : List GroupEntry) (failName : String)
    (failGroup : List RuleFunction)
    (hsplit : cv.error_validator_groups = pre ++ (failName, failGroup) :: rest)
    (hname : failName ∉ pre.map Prod.fst)
    (hbefore : ∀ g ∈ pre, _run_validator_group g.2
      (validateArguments cv solution_repo original_repo kwargs) = [])
    (hfail : _run_validator_group failGroup
      (validateArguments cv solution_repo original_repo kwargs) ≠ []) :
    (cv.validate solution_repo original_repo kwargs).1 =
      _run_validator_group failGroup
        (validateArguments cv solution_repo original_repo kwargs)
      ++ (pre.map (fun g => _run_validator_group
        (getGroup cv.warning_validator_groups g.1)
        (validateArguments cv solution_repo original_repo kwargs))).flatten := by
  set A := validateArguments cv solution_repo original_repo kwargs with hA
  have hval : (cv.validate solution_repo original_repo kwargs).1 =
      validateLoop { cv with validator_arguments := A }
        cv.error_validator_groups A [] := rfl
  rw [hval, hsplit]
  rw [validateLoop_first_fail _ A pre rest failName failGroup hbefore hfail]
  have hwarn : _run_warning_validators_until
      { error_validator_groups := pre ++ (failName, failGroup) :: rest,
        warning_validator_groups := cv.warning_validator_groups,
        validator_arguments := A } failName A =
      (pre.map (fun g => _run_validator_group
        (getGroup cv.warning_validator_groups g.1) A)).flatten :=
    warnUntilLoop_spec cv.warning_validator_groups A pre rest failName
      failGroup hname
  rw [hwarn]

/-- **C1** (short-circuit correctness): for every catalog and input, if
the error group `(failName, failGroup)` is the first whose rules produce
at least one violation (`pre` are the groups before it, all clean; group
names are unique, as keys of an `OrderedDict`), then `validate` returns
exactly the violations of the error rules of groups `0..i` (the clean
prefix contributing nothing and the failing group everything), followed
by the violations of the warning rules of groups `0..i-1`; no group
after the failing one contributes, and the failing group's own warning
rules contribute nothing. -/
theorem validate_short_circuit (cv : CodeValidator)
    (solution_repo original_repo : PyVal) (kwargs : Args)
    (pre rest : List GroupEntry) (failName : String)
    (failGroup : List RuleFunction)
    (hsplit : cv.error_validator_groups = pre ++ (failName, failGroup) :: rest)
    (hname : failName ∉ pre.map Prod.fst)
    (hbefore : ∀ g ∈ pre, _run_validator_group g.2
      (validateArguments cv solution_repo original_repo kwargs) = [])
    (hfail : _run_validator_group failGroup
      (validateArguments cv solution_repo original_repo kwargs) ≠ []) :
    (cv.validate solution_repo original_repo kwargs).1 =
      ((pre ++ [(failName, failGroup)]).map (fun g =>
        _run_validator_group g.2
          (validateArguments cv solution_repo original_repo kwargs))).flatten
      ++ (pre.map (fun g => _run_validator_group
        (getGroup cv.warning_validator_groups g.1)
        (validateArguments cv solution_repo original_repo kwargs))).flatten := by
  rw [validate_first_fail_core cv solution_repo original_repo kwargs pre rest
    failName failGroup hsplit hname hbefore hfail]
  rw [List.map_append, List.flatten_append, flatten_map_nil _ pre hbefore]
  simp

/-- A rule that always succeeds (returns Python `None`). -/
def okRule : RuleFunction := fun _ => PyVal.none

/-- A rule that always reports the violation `("readme", "no readme")`. -/
def readmeFailRule : RuleFunction := fun _ =>
  PyVal.tuple [PyVal.str "readme", PyVal.str "no readme"]

/-- A warning rule reporting `("commit_message", "bad message")`. -/
def commitWarnRule : RuleFunction := fun _ =>
  PyVal.tuple [PyVal.str "commit_message", PyVal.str "bad message"]

/-- A concrete engine: clean `commits` group, failing `readme` group,
a later `general` group, and a warning rule attached to `commits`. -/
def cvExample : CodeValidator :=
  CodeValidator.init
    [("commits", [okRule]), ("readme", [readmeFailRule]), ("general", [okRule])]
    [("commits", [commitWarnRule])]
    []

theorem validate_short_circuit_witness :
    (cvExample.validate (PyVal.repo 1) PyVal.none []).1 =
      [PyVal.tuple [PyVal.str "readme", PyVal.str "no readme"],
       PyVal.tuple [PyVal.str "commit_message", PyVal.str "bad message"]] :=
  (validate_short_circuit cvExample (PyVal.repo 1) PyVal.none []
    [("commits", [okRule])] [("general", [okRule])] "readme" [readmeFailRule]
    rfl (by decide)
    (by
      intro g hg
      cases hg with
      | head => rfl
      | tail _ h2 => cases h2)
    (by
      intro h
      exact List.noConfusion h)).trans rfl

/-- **C3** (order preservation): under the same first-failure hypotheses
as C1, the returned list is, group by group in declaration order and
rule by rule in declaration order within each group, the unsuccessful
results of the error rules of the groups up to and including the failing
one, followed — in ascending order of the preceding groups — by the
unsuccessful results of those groups' warning rules; the `filter`/`map`
form keeps every record in order with its multiplicity, so identical
records are never deduplicated. -/
theorem validate_order_preservation (cv : CodeValidator)
    (solution_repo original_repo : PyVal) (kwargs : Args)
    (pre rest : List GroupEntry) (failName : String)
    (failGroup : List RuleFunction)
    (hsplit : cv.error_validator_groups = pre ++ (failName, failGroup) :: rest)
    (hname : failName ∉ pre.map Prod.fst)
    (hbefore : ∀ g ∈ pre, _run_validator_group g.2
      (validateArguments cv solution_repo original_repo kwargs) = [])
    (hfail : _run_validator_group failGroup
      (validateArguments cv solution_repo original_repo kwargs) ≠ []) :
    (cv.validate solution_repo original_repo kwargs).1 =
      ((pre ++ [(failName, failGroup)]).map (fun g =>
        (g.2.map (fun validator => validator
          (validateArguments cv solution_repo original_repo kwargs))).filter
          (fun r => !(_is_successful_validation r)))).flatten
      ++ (pre.map (fun g =>
        ((getGroup cv.warning_validator_groups g.1).map (fun validator =>
          validator
            (validateArguments cv solution_repo original_repo kwargs))).filter
          (fun r => !(_is_successful_validation r)))).flatten := by
  rw [validate_first_fail_core cv solution_repo original_repo kwargs pre rest
    failName failGroup hsplit hname hbefore hfail]
  simp only [← run_validator_group_eq_filter]
  rw [List.map_append, List.flatten_append, flatten_map_nil _ pre hbefore]
  simp

/-- A rule that reports a fixed violation, used twice in a row to show
that identical records are kept with their multiplicity. -/
def dupRule : RuleFunction := fun _ => PyVal.tuple [PyVal.str "dup", PyVal.none]

/-- A concrete engine whose failing group produces the same record twice
before a third, different record. -/
def cvDupExample : CodeValidator :=
  CodeValidator.init
    [("commits", [okRule]), ("readme", [dupRule, dupRule, readmeFailRule])]
    [("commits", [commitWarnRule])]
    []

theorem validate_order_preservation_witness :
    (cvDupExample.validate (PyVal.repo 1) PyVal.none []).1 =
      [PyVal.tuple [PyVal.str "dup", PyVal.none],
       PyVal.tuple [PyVal.str "dup", PyVal.none],
       PyVal.tuple [PyVal.str "readme", PyVal.str "no readme"],
       PyVal.tuple [PyVal.str "commit_message", PyVal.str "bad message"]] :=
  (validate_order_preservation cvDupExample (PyVal.repo 1) PyVal.none []
    [("commits", [okRule])] [] "readme" [dupRule, dupRule, readmeFailRule]
    rfl (by decide)
    (by
      intro g hg
      cases hg with
      | head => rfl
      | tail _ h2 => cases h2)
    (by
      intro h
      exact List.noConfusion h)).trans rfl

/-- **C4** (clean pass): for every catalog and input on which no error
group produces any violation, `validate` returns the empty list — the
warning sweep is never entered, whatever the warning rules would have
found. -/
theorem validate_clean_pass_empty (cv : CodeValidator)
    (solution_repo original_repo : PyVal) (kwargs : Args)
    (hclean : ∀ g ∈ cv.error_validator_groups, _run_validator_group g.2
      (validateArguments cv solution_repo original_repo kwargs) = []) :
    (cv.validate solution_repo original_repo kwargs).1 = [] := by
  set A := validateArguments cv solution_repo original_repo kwargs with hA
  have hval : (cv.validate solution_repo original_repo kwargs).1 =
      validateLoop { cv with validator_arguments := A }
        cv.error_validator_groups A [] := rfl
  rw [hval]
  exact validateLoop_all_clean _ _ _ hclean

/-- A concrete engine whose error groups are all clean while a warning
rule attached to the first group would report a violation. -/
def cvCleanExample : CodeValidator :=
  CodeValidator.init
    [("commits", [okRule]), ("syntax", [okRule])]
    [("commits", [commitWarnRule])]
    []

theorem validate_clean_pass_empty_witness :
    (cvCleanExample.validate (PyVal.repo 1) PyVal.none []).1 = [] :=
  validate_clean_pass_empty cvCleanExample (PyVal.repo 1) PyVal.none []
    (by
      intro g hg
      cases hg with
      | head => rfl
      | tail _ h2 =>
          cases h2 with
          | head => rfl
          | tail _ h3 => cases h3)

/-! ### Lookup lemmas about the per-call argument bag -/

theorem dget_validateArguments_not_reserved (cv : CodeValidator)
    (sr orp : PyVal) (kwargs : Args) (key : String)
    (hk : key ∉ kwargs.map Prod.fst)
    (hw : key ≠ "whitelists") (hb : key ≠ "blacklists")
    (hs : key ≠ "solution_repo") (ho : key ≠ "original_repo") :
    dget (validateArguments cv sr orp kwargs) key =
      dget cv.validator_arguments key := by
  unfold validateArguments
  cases ht : truthy orp
  · simp only [ht, Bool.false_eq_true, if_false]
    rw [dget_dset_ne _ _ _ _ hs, dget_dset_ne _ _ _ _ hb,
      dget_dset_ne _ _ _ _ hw, dget_dictUpdate_not_mem _ _ _ hk]
  · simp only [ht, if_true]
    rw [dget_dset_ne _ _ _ _ ho, dget_dset_ne _ _ _ _ hs,
      dget_dset_ne _ _ _ _ hb, dget_dset_ne _ _ _ _ hw,
      dget_dictUpdate_not_mem _ _ _ hk]

theorem dget_validateArguments_whitelists (cv : CodeValidator)
    (sr orp : PyVal) (kwargs : Args) :
    dget (validateArguments cv sr orp kwargs) "whitelists" =
      some whitelists := by
  unfold validateArguments
  cases ht : truthy orp
  · simp only [ht, Bool.false_eq_true, if_false]
    rw [dget_dset_ne _ _ _ _ (by decide), dget_dset_ne _ _ _ _ (by decide),
      dget_dset_self]
  · simp only [ht, if_true]
    rw [dget_dset_ne _ _ _ _ (by decide), dget_dset_ne _ _ _ _ (by decide),
      dget_dset_ne _ _ _ _ (by decide), dget_dset_self]

theorem dget_validateArguments_blacklists (cv : CodeValidator)
    (sr orp : PyVal) (kwargs : Args) :
    dget (validateArguments cv sr orp kwargs) "blacklists" =
      some blacklists := by
  unfold validateArguments
  cases ht : truthy orp
  · simp only [ht, Bool.false_eq_true, if_false]
    rw [dget_dset_ne _ _ _ _ (by decide), dget_dset_self]
  · simp only [ht, if_true]
    rw [dget_dset_ne _ _ _ _ (by decide), dget_dset_ne _ _ _ _ (by decide),
      dget_dset_self]

theorem dget_validateArguments_solution_repo (cv : CodeValidator)
    (sr orp : PyVal) (kwargs : Args) :
    dget (validateArguments cv sr orp kwargs) "solution_repo" = some sr := by
  unfold validateArguments
  cases ht : truthy orp
  · simp only [ht, Bool.false_eq_true, if_false]
    rw [dget_dset_self]
  · simp only [ht, if_true]
    rw [dget_dset_ne _ _ _ _ (by decide), dget_dset_self]

theorem dget_validateArguments_original_repo (cv : CodeValidator)
    (sr orp : PyVal) (kwargs : Args)
    (hko : "original_repo" ∉ kwargs.map Prod.fst) :
    dget (validateArguments cv sr orp kwargs) "original_repo" =
      (if truthy orp then some orp
       else dget cv.validator_arguments "original_repo") := by
  unfold validateArguments
  cases ht : truthy orp
  · simp only [ht, Bool.false_eq_true, if_false]
    rw [dget_dset_ne _ _ _ _ (by decide), dget_dset_ne _ _ _ _ (by decide),
      dget_dset_ne _ _ _ _ (by decide), dget_dictUpdate_not_mem _ _ _ hko]
  · simp only [ht, if_true]
    rw [dget_dset_self]

/-- Following the spec's words (§3 Lifecycle, P4): the configuration a
single `validate` call is said to give its rules — a fresh merge of the
built-in defaults with only that call's overrides, then the reserved-key
injections. Compared against the actual `validateArguments`. -/
def freshMergeArguments (solution_repo original_repo : PyVal)
    (kwargs : Args) : Args :=
  let a1 := dictUpdate _default_settings kwargs
  let a2 := dset a1 "whitelists" whitelists
  let a3 := dset a2 "blacklists" blacklists
  let a4 := dset a3 "solution_repo" solution_repo
  if truthy original_repo then dset a4 "original_repo" original_repo else a4

/-- A rule that reports the `max_complexity` setting it receives as a
violation record, making the configuration handed to rules observable
in the returned list. -/
def probeRule : RuleFunction := fun arguments =>
  PyVal.tuple [PyVal.str "max_complexity_probe",
    (dget arguments "max_complexity").getD PyVal.none]

/-- An engine whose single error group reports the `max_complexity`
setting its rule receives. -/
def cvProbe : CodeValidator :=
  CodeValidator.init [("general", [probeRule])] [] []

/-- **C2** counterexample: the claim fails on the code. A first
`validate` call overriding `max_complexity` to `99` leaks into a second
call with no overrides: the second call's rule receives `99`, whereas a
fresh merge of the defaults with the second call's (empty) overrides
carries the default `7`. -/
theorem overrides_leak_across_calls :
    ((cvProbe.validate (PyVal.repo 1) PyVal.none
        [("max_complexity", PyVal.int 99)]).2.validate
      (PyVal.repo 1) PyVal.none []).1 =
      [PyVal.tuple [PyVal.str "max_complexity_probe", PyVal.int 99]] ∧
    dget (freshMergeArguments (PyVal.repo 1) PyVal.none [])
      "max_complexity" = some (PyVal.int 7) :=
  ⟨rfl, rfl⟩

/-- **C2** amended: `validator_arguments` is instance state that
accumulates across calls — the bag a later `validate` call hands its
rules agrees, on every non-reserved key that the later call's overrides
do not set, with the full bag of the previous call, so the previous
call's overrides leak into the later call. -/
theorem validator_arguments_accumulate (cv : CodeValidator)
    (sr1 or1 : PyVal) (k1 : Args) (sr2 or2 : PyVal) (k2 : Args)
    (key : String)
    (h2 : key ∉ k2.map Prod.fst)
    (hw : key ≠ "whitelists") (hb : key ≠ "blacklists")
    (hs : key ≠ "solution_repo") (ho : key ≠ "original_repo") :
    dget (validateArguments (cv.validate sr1 or1 k1).2 sr2 or2 k2) key =
      dget (validateArguments cv sr1 or1 k1) key := by
  rw [dget_validateArguments_not_reserved _ sr2 or2 k2 key h2 hw hb hs ho]
  exact rfl

theorem validator_arguments_accumulate_witness :
    dget (validateArguments
      ((CodeValidator.init [] [] []).validate (PyVal.repo 1) PyVal.none
        [("max_complexity", PyVal.int 99)]).2
      (PyVal.repo 2) PyVal.none []) "max_complexity" =
      some (PyVal.int 99) :=
  (validator_arguments_accumulate (CodeValidator.init [] [] [])
    (PyVal.repo 1) PyVal.none [("max_complexity", PyVal.int 99)]
    (PyVal.repo 2) PyVal.none [] "max_complexity"
    (by decide) (by decide) (by decide) (by decide) (by decide)).trans rfl

/-- **C5** (reserved-key precedence): for every `validate` call, the
four reserved keys of the bag the rules receive are fixed by the engine:
`whitelists` and `blacklists` are the class tables (set after the kwargs
update, so a caller override of those names is discarded), and
`solution_repo` is the call's repository handle. `original_repo` is the
call's baseline handle when truthy; otherwise the pre-call entry — under
Python's calling convention the `**kwargs` of `validate` can never
contain the parameter name `original_repo` (hypothesis `hko`), so no
override can reach it either way. -/
theorem reserved_keys_precedence (cv : CodeValidator) (sr orp : PyVal)
    (kwargs : Args)
    (hko : "original_repo" ∉ kwargs.map Prod.fst) :
    dget (validateArguments cv sr orp kwargs) "whitelists" =
      some whitelists ∧
    dget (validateArguments cv sr orp kwargs) "blacklists" =
      some blacklists ∧
    dget (validateArguments cv sr orp kwargs) "solution_repo" = some sr ∧
    dget (validateArguments cv sr orp kwargs) "original_repo" =
      (if truthy orp then some orp
       else dget cv.validator_arguments "original_repo") :=
  ⟨dget_validateArguments_whitelists cv sr orp kwargs,
   dget_validateArguments_blacklists cv sr orp kwargs,
   dget_validateArguments_solution_repo cv sr orp kwargs,
   dget_validateArguments_original_repo cv sr orp kwargs hko⟩

theorem reserved_keys_precedence_witness :
    dget (validateArguments (CodeValidator.init [] [] []) (PyVal.repo 3)
      (PyVal.repo 4)
      [("whitelists", PyVal.int 0), ("blacklists", PyVal.int 1)])
      "whitelists" = some whitelists ∧
    dget (validateArguments (CodeValidator.init [] [] []) (PyVal.repo 3)
      (PyVal.repo 4)
      [("whitelists", PyVal.int 0), ("blacklists", PyVal.int 1)])
      "blacklists" = some blacklists ∧
    dget (validateArguments (CodeValidator.init [] [] []) (PyVal.repo 3)
      (PyVal.repo 4)
      [("whitelists", PyVal.int 0), ("blacklists", PyVal.int 1)])
      "solution_repo" = some (PyVal.repo 3) ∧
    dget (validateArguments (CodeValidator.init [] [] []) (PyVal.repo 3)
      (PyVal.repo 4)
      [("whitelists", PyVal.int 0), ("blacklists", PyVal.int 1)])
      "original_repo" =
      (if truthy (PyVal.repo 4) then some (PyVal.repo 4)
       else dget (CodeValidator.init [] [] []).validator_arguments
         "original_repo") :=
  reserved_keys_precedence (CodeValidator.init [] [] []) (PyVal.repo 3)
    (PyVal.repo 4) [("whitelists", PyVal.int 0), ("blacklists", PyVal.int 1)]
    (by decide)

/-- **C10**: when `validate` is called with a falsy `original_repo`, no
`original_repo` entry is injected: the bag the rules receive holds, at
that key, exactly whatever the engine's argument dict already held (a
stale handle from constructor kwargs or an earlier call, or nothing).
The hypothesis `hko` reflects Python's calling convention: a keyword
named `original_repo` binds the parameter, never `**kwargs`. -/
theorem falsy_original_repo_keeps_stale_entry (cv : CodeValidator)
    (sr orp : PyVal) (kwargs : Args)
    (hfalsy : truthy orp = false)
    (hko : "original_repo" ∉ kwargs.map Prod.fst) :
    dget (validateArguments cv sr orp kwargs) "original_repo" =
      dget cv.validator_arguments "original_repo" := by
  rw [dget_validateArguments_original_repo cv sr orp kwargs hko, hfalsy]
  simp

theorem falsy_original_repo_keeps_stale_entry_witness :
    dget (validateArguments
      (CodeValidator.init [] [] [("original_repo", PyVal.repo 7)])
      (PyVal.repo 1) PyVal.none []) "original_repo" =
      some (PyVal.repo 7) :=
  (falsy_original_repo_keeps_stale_entry
    (CodeValidator.init [] [] [("original_repo", PyVal.repo 7)])
    (PyVal.repo 1) PyVal.none [] rfl (by decide)).trans rfl

/-- Whether a `PyVal` is a Python tuple, of any length. -/
def isTuple : PyVal → Bool
  | PyVal.tuple _ => true
  | _ => false

/-- Following the spec's words (§4.1): a rule result is a success
exactly when it is not a 2-element ordered pair. Compared against the
actual `_is_successful_validation`. -/
def is_successful_validation_per_spec (v : PyVal) : Bool :=
  match v with
  | PyVal.tuple elems => decide (elems.length ≠ 2)
  | _ => true

/-- **C6** counterexample: the claim fails on the code. A 3-element
tuple is not a 2-element ordered pair, so per the claim the engine would
classify it as a success; the engine classifies it as a violation
(`isinstance(result, tuple)` is true for any arity) and records it. -/
theorem three_tuple_recorded_as_violation :
    _is_successful_validation
      (PyVal.tuple [PyVal.none, PyVal.none, PyVal.none]) = false ∧
    is_successful_validation_per_spec
      (PyVal.tuple [PyVal.none, PyVal.none, PyVal.none]) = true ∧
    _run_validator_group
      [fun _ => PyVal.tuple [PyVal.none, PyVal.none, PyVal.none]] [] =
      [PyVal.tuple [PyVal.none, PyVal.none, PyVal.none]] :=
  ⟨rfl, rfl, rfl⟩

/-- **C6** amended: the engine's sole discriminator is tuple-ness of
any arity, not 2-element-pair-ness: a rule result is classified as a
success exactly when it is not a tuple, and `_run_validator_group`
records as violations exactly those results that are tuples. -/
theorem tuple_shape_sole_discriminator :
    (∀ v, _is_successful_validation v = !(isTuple v)) ∧
    (∀ (group : List RuleFunction) (arguments : Args),
      _run_validator_group group arguments =
        (group.map (fun validator => validator arguments)).filter
          (fun r => isTuple r)) := by
  constructor
  · intro v
    cases v <;> rfl
  · intro group arguments
    induction group with
    | nil => rfl
    | cons v rest ih =>
        simp only [_run_validator_group, List.map_cons, List.filter_cons, ih]
        cases h : v arguments <;>
          simp [_is_successful_validation, isTuple]

/-- **C7**: the class-body invariant — every key of
`warning_validator_groups` occurs among the keys of
`error_validator_groups` — holds for the catalog, so the `assert` in the
class body (evaluated once, when the class is constructed at process
start) passes; `validate` performs no such check. -/
theorem warning_groups_subset_of_error_groups : class_body_assert = true := by
  decide

/-! ### `code_helpers.py` -/

/-- Whether a character list starts with another (helper for Python's
substring test). -/
def listStartsWith : List Char → List Char → Bool
  | _, [] => true
  | [], _ :: _ => false
  | h :: hs, n :: ns => h = n && listStartsWith hs ns

/-- Whether `needle` occurs contiguously inside `hay`. -/
def substringOf (needle hay : List Char) : Bool :=
  match hay with
  | [] => needle.isEmpty
  | _ :: rest => listStartsWith hay needle || substringOf needle rest

/-- The Python substring test `needle in hay` on strings, as used by
`whitelisted_path_part in python_file_path`. -/
def pyIn (needle hay : String) : Bool := substringOf needle.toList hay.toList

/-- The repository handle of `count_pep8_violations`: the function only
calls `get_python_file_filenames()` on it. -/
structure RepositoryInfo where
  python_file_filenames : List String

/-- `count_pep8_violations(repository_info, max_line_length,
path_whitelist)`: treat a missing/empty whitelist as empty
(`path_whitelist or []`), drop every file whose path contains any
whitelisted substring (the for/break/else loop), then hand the remaining
paths to the external pep8 checker — `check_files` models
`pep8.StyleGuide(...).check_files(...).total_errors` as an opaque
function of the configured max line length and the path list — and
return its total error count. -/
def count_pep8_violations (check_files : Nat → List String → Nat)
    (repository_info : RepositoryInfo) (max_line_length : Nat)
    (path_whitelist : Option (List String)) : Nat :=
  let pw := path_whitelist.getD []
  let validatable_paths := repository_info.python_file_filenames.filter
    (fun p => !(pw.any (fun w => pyIn w p)))
  check_files max_line_length validatable_paths

/-- **C8**: a file whose path contains a whitelisted substring is
excluded from checking — it never reaches the checker, so it contributes
nothing to the count regardless of its line lengths — and the returned
total is the checker's count over exactly the remaining
(non-whitelisted) files. -/
theorem pep8_counter_whitelist_exempts (check_files : Nat → List String → Nat)
    (max_line_length : Nat) (pre post : List String) (p : String)
    (wl : List String) (w : String)
    (hw : w ∈ wl) (hin : pyIn w p = true) :
    count_pep8_violations check_files ⟨pre ++ p :: post⟩ max_line_length
        (some wl) =
      count_pep8_violations check_files ⟨pre ++ post⟩ max_line_length
        (some wl) ∧
    count_pep8_violations check_files ⟨pre ++ p :: post⟩ max_line_length
        (some wl) =
      check_files max_line_length ((pre ++ post).filter
        (fun q => !(wl.any (fun u => pyIn u q)))) := by
  have hp : (wl.any (fun u => pyIn u p)) = true :=
    List.any_eq_true.mpr ⟨w, hw, hin⟩
  have hfilter : (pre ++ p :: post).filter
      (fun q => !(wl.any (fun u => pyIn u q))) =
      (pre ++ post).filter (fun q => !(wl.any (fun u => pyIn u q))) := by
    simp [List.filter_append, List.filter_cons, hp]
  constructor <;>
    · simp only [count_pep8_violations, Option.getD_some]
      rw [hfilter]

theorem pep8_counter_whitelist_exempts_witness :
    count_pep8_violations (fun _ paths => paths.length)
      ⟨["app/migrations/0001_initial.py", "app/views.py"]⟩ 100
      (some ["/migrations/"]) =
    count_pep8_violations (fun _ paths => paths.length)
      ⟨["app/views.py"]⟩ 100 (some ["/migrations/"]) ∧
    count_pep8_violations (fun _ paths => paths.length)
      ⟨["app/migrations/0001_initial.py", "app/views.py"]⟩ 100
      (some ["/migrations/"]) =
    (fun _ paths => paths.length : Nat → List String → Nat) 100
      (["app/views.py"].filter
        (fun q => !(["/migrations/"].any (fun u => pyIn u q)))) :=
  pep8_counter_whitelist_exempts (fun _ paths => paths.length) 100
    [] ["app/views.py"] "app/migrations/0001_initial.py" ["/migrations/"]
    "/migrations/" (by decide) (by decide)

/-- One value of the `visitor.graphs` mapping built by the mccabe
`PathGraphingAstVisitor`: the entity's name and its complexity. -/
structure PathGraph where
  entity : String
  complexity : Int

/-- The reporting loop of `get_mccabe_violations_for_file`: keep the
entities whose `complexity()` reaches the threshold, replacing a name
starting with `"If "` by the fixed literal. -/
def mccabeViolations : List PathGraph → Int → List String
  | [], _ => []
  | graph :: rest, max_complexity =>
      if graph.complexity ≥ max_complexity then
        (if graph.entity.startsWith "If " then "if __name__ == \"__main__\""
         else graph.entity) :: mccabeViolations rest max_complexity
      else mccabeViolations rest max_complexity

/-- `get_mccabe_violations_for_file(filepath, max_complexity)`: the file
reading, AST compilation and graph construction (`_read`, `compile`,
`PathGraphingAstVisitor`) are external collaborators, modelled as an
opaque map from the file path to the list of that file's entity
graphs. -/
def get_mccabe_violations_for_file (graphs_of_file : String → List PathGraph)
    (filepath : String) (max_complexity : Int) : List String :=
  mccabeViolations (graphs_of_file filepath) max_complexity

theorem mccabeViolations_eq_filter_map (graphs : List PathGraph)
    (max_complexity : Int) :
    mccabeViolations graphs max_complexity =
      (graphs.filter (fun g => max_complexity ≤ g.complexity)).map
        (fun g =>
          if g.entity.startsWith "If " then "if __name__ == \"__main__\""
          else g.entity) := by
  induction graphs with
  | nil => rfl
  | cons g rest ih =>
      simp only [mccabeViolations, List.filter_cons, ge_iff_le]
      by_cases h : max_complexity ≤ g.complexity
      · simp [h, ih]
      · simp [h, ih]

/-- **C9**: the complexity analyzer returns exactly the names of the
entities whose complexity reaches the threshold, in order, and an
offending entity whose raw name starts with `"If "` (a module-level
`if`-guard, as produced by mccabe for `if __name__ == "__main__"`) is
reported under the fixed literal label instead of its raw name. -/
theorem mccabe_violations_filter_relabel
    (graphs_of_file : String → List PathGraph) (filepath : String)
    (max_complexity : Int) :
    get_mccabe_violations_for_file graphs_of_file filepath max_complexity =
      ((graphs_of_file filepath).filter
        (fun graph => max_complexity ≤ graph.complexity)).map
        (fun graph =>
          if graph.entity.startsWith "If " then "if __name__ == \"__main__\""
          else graph.entity) :=
  mccabeViolations_eq_filter_map (graphs_of_file filepath) max_complexity
